import Mathlib

/-!
Shallow embedding of the Blockstore API client methods
(`blockstore/apps/api/methods.py`) together with the parts of the data model
they depend on.  Django ORM rows become records held in an explicit `State`;
each Python function becomes a Lean function from `State` (returning
`Except APIError _`, paired with an output `State` when it mutates).
Pieces of the repository that the methods call but that are not part of the
two source files (the bundle store, the REST remote, serializers) are
modelled from the spec and carry a doc comment saying so.
-/

namespace Blockstore

instance exceptDecEq {ε α : Type} [DecidableEq ε] [DecidableEq α] :
    DecidableEq (Except ε α) := fun x y =>
  match x, y with
  | Except.ok a, Except.ok b =>
    if h : a = b then Decidable.isTrue (congrArg Except.ok h)
    else Decidable.isFalse (fun hc => h (by injection hc))
  | Except.error a, Except.error b =>
    if h : a = b then Decidable.isTrue (congrArg Except.error h)
    else Decidable.isFalse (fun hc => h (by injection hc))
  | Except.ok _, Except.error _ => Decidable.isFalse (fun hc => Except.noConfusion hc)
  | Except.error _, Except.ok _ => Decidable.isFalse (fun hc => Except.noConfusion hc)

/-! ### Basic values -/

abbrev UUIDv := Nat

/-- A Python value as passed in keyword arguments: either a text string or a
UUID object.  Used to model the dynamic `fields` of `update_bundle`. -/
inductive PyVal where
  | str (s : String)
  | uuid (u : UUIDv)
deriving DecidableEq

/-- The result of applying Python `str(...)` to a `PyVal`. -/
def pyStrOf : PyVal → String
  | .str s => s
  | .uuid u => toString u

/-- The result of Python `isinstance(v, UUID)` on a `PyVal`. -/
def isinstanceUUID : PyVal → Bool
  | .str _ => false
  | .uuid _ => true

/-- Python truthiness of an optional string (`None` and `""` are falsy). -/
def truthy : Option String → Bool
  | none => false
  | some s => !s.isEmpty

/-! ### Snapshot and draft data (bundles app) -/

structure FileInfo where
  hash_digest : String
  size : Nat
deriving DecidableEq

/-- A staged file diff entry of a draft: either a pending write of content
identified by digest and size, or a pending delete of the path. -/
inductive FileDiff where
  | write (hash_digest : String) (size : Nat)
  | delete
deriving DecidableEq

structure LinkReference where
  bundle_uuid : UUIDv
  version_num : Nat
deriving DecidableEq

/-- A staged link diff entry of a draft. -/
inductive LinkDiff where
  | set (ref : LinkReference)
  | delete
deriving DecidableEq

structure LinkManifestEntry where
  direct : LinkReference
  indirect : List LinkReference
deriving DecidableEq

/-- An immutable bundle version: a file manifest and a link manifest. -/
structure Snapshot where
  files : List (String × FileInfo)
  links : List (String × LinkManifestEntry)
deriving DecidableEq

/-- Modelled from the spec: the staged draft data kept by the bundle store
(`blockstore.apps.bundles.store.StagedDraft`, not among the source files).
It holds the base snapshot content the draft is anchored to plus the sparse
file and link diffs staged on top of it. -/
structure StagedDraft where
  updated_at : Nat
  base_version : Nat
  base_files : List (String × FileInfo)
  base_links : List (String × LinkManifestEntry)
  files_to_overwrite : List (String × FileDiff)
  links_to_overwrite : List (String × LinkDiff)
deriving DecidableEq

/-- Modelled from the spec: `StagedDraft.files`, the effective (composed)
file map of a draft — the base snapshot files with the staged diff applied:
a staged write overrides or adds the path, a staged delete removes it. -/
def StagedDraft.files (sd : StagedDraft) : List (String × FileInfo) :=
  (sd.base_files.filterMap fun pf =>
    match sd.files_to_overwrite.lookup pf.1 with
    | some (FileDiff.write d s) => some (pf.1, FileInfo.mk d s)
    | some FileDiff.delete => none
    | none => some pf)
  ++ (sd.files_to_overwrite.filterMap fun pd =>
    match pd.2 with
    | FileDiff.write d s =>
        if (sd.base_files.lookup pd.1).isSome then none
        else some (pd.1, FileInfo.mk d s)
    | FileDiff.delete => none)

/-! ### ORM model rows -/

structure Models.Collection where
  uuid : UUIDv
  title : String
deriving DecidableEq

structure Models.Bundle where
  uuid : UUIDv
  collection_uuid : UUIDv
  title : String
  description : String
  slug : String
  versions : List Snapshot
deriving DecidableEq

structure Models.Draft where
  uuid : UUIDv
  bundle_uuid : UUIDv
  name : String
  staged_draft : StagedDraft
deriving DecidableEq

/-- The whole persisted state: collection, bundle and draft rows, the
content store blobs, a counter for fresh UUIDs and a logical clock used for
`updated_at` timestamps. -/
structure State where
  collections : List Models.Collection
  bundles : List Models.Bundle
  drafts : List Models.Draft
  blobs : List (String × List Nat)
  next_uuid : UUIDv
  clock : Nat
deriving DecidableEq

def State.findCollection (st : State) (u : UUIDv) : Option Models.Collection :=
  st.collections.find? (fun c => c.uuid == u)

def State.findBundle (st : State) (u : UUIDv) : Option Models.Bundle :=
  st.bundles.find? (fun b => b.uuid == u)

def State.findDraft (st : State) (u : UUIDv) : Option Models.Draft :=
  st.drafts.find? (fun d => d.uuid == u)

def State.findDraftByName (st : State) (bu : UUIDv) (n : String) : Option Models.Draft :=
  st.drafts.find? (fun d => d.bundle_uuid == bu && d.name == n)

/-- Modelled from the spec: `models.Bundle.get_bundle_version` (the models
module is not among the source files) returns the latest committed version
of the bundle, or nothing when no version has been committed; version
numbers of a bundle form the gap-free sequence `1..latest`, so the latest
version number is the length of the version list. -/
def Models.Bundle.get_bundle_version (b : Models.Bundle) : Option Nat :=
  if b.versions.isEmpty then none else some b.versions.length

/-! ### API data records (`blockstore.apps.api.models` named tuples) -/

structure Collection where
  uuid : UUIDv
  title : String
deriving DecidableEq

structure Bundle where
  uuid : UUIDv
  title : String
  description : String
  slug : String
  drafts : List (String × UUIDv)
  latest_version : Nat
deriving DecidableEq

structure DraftFile where
  path : String
  size : Nat
  url : String
  hash_digest : String
  modified : Bool
deriving DecidableEq

structure BundleFile where
  path : String
  size : Nat
  hash_digest : String
deriving DecidableEq

structure LinkDetails where
  name : String
  direct : LinkReference
  indirect : List LinkReference
deriving DecidableEq

structure DraftLinkDetails where
  name : String
  direct : LinkReference
  indirect : List LinkReference
  modified : Bool
deriving DecidableEq

structure Draft where
  uuid : UUIDv
  bundle_uuid : UUIDv
  name : String
  updated_at : Nat
  files : List (String × DraftFile)
  links : List (String × DraftLinkDetails)
deriving DecidableEq

inductive APIError where
  | collectionNotFound
  | bundleNotFound
  | draftNotFound
  | versionNotFound
  | bundleFileNotFound
  | valueError
  | assertionError
  | validationError
deriving DecidableEq

/-! ### Conversion helpers from `methods.py` -/

def _data_from_collection (c : Models.Collection) : Collection :=
  ⟨c.uuid, c.title⟩

def _data_from_bundle (st : State) (b : Models.Bundle) : Bundle :=
  ⟨b.uuid, b.title, b.description, b.slug,
   (st.drafts.filter (fun d => d.bundle_uuid == b.uuid)).map (fun d => (d.name, d.uuid)),
   match b.get_bundle_version with
   | some v => v
   | none => 0⟩

/-- Direct translation of `_data_from_draft`: the file map comes from the
staged draft with `url = path` and `modified = path in files_to_overwrite`,
and the links map is the empty map, exactly as the source (which leaves the
links conversion as a Todo and assigns the empty dict). -/
def _data_from_draft (d : Models.Draft) : Draft :=
  ⟨d.uuid, d.bundle_uuid, d.name, d.staged_draft.updated_at,
   d.staged_draft.files.map (fun pf =>
     (pf.1, ⟨pf.1, pf.2.size, pf.1, pf.2.hash_digest,
             (d.staged_draft.files_to_overwrite.lookup pf.1).isSome⟩)),
   []⟩

/-! ### Collection operations -/

def get_collection (st : State) (u : UUIDv) : Except APIError Collection :=
  match st.findCollection u with
  | none => Except.error APIError.collectionNotFound
  | some c => Except.ok (_data_from_collection c)

def create_collection (st : State) (title : String) : Collection × State :=
  let c : Models.Collection := ⟨st.next_uuid, title⟩
  (_data_from_collection c,
   { st with collections := st.collections ++ [c], next_uuid := st.next_uuid + 1 })

def update_collection (st : State) (u : UUIDv) (title : String) :
    Except APIError (Collection × State) :=
  match st.findCollection u with
  | none => Except.error APIError.collectionNotFound
  | some c =>
    let c2 : Models.Collection := ⟨c.uuid, title⟩
    Except.ok (_data_from_collection c2,
      { st with collections := st.collections.map (fun x => if x.uuid == u then c2 else x) })

/-- The collection delete; the cascade from a collection to its bundles and
from a bundle to its drafts is modelled from the spec ownership rules (the
foreign keys live in model modules not among the source files, except the
draft cascade which is in the draft migration). -/
def delete_collection (st : State) (u : UUIDv) : Except APIError State :=
  match st.findCollection u with
  | none => Except.error APIError.collectionNotFound
  | some _ =>
    Except.ok
      { st with
        collections := st.collections.filter (fun c => c.uuid != u),
        bundles := st.bundles.filter (fun b => b.collection_uuid != u),
        drafts := st.drafts.filter (fun d =>
          ((st.bundles.filter (fun b => b.collection_uuid == u)).find?
            (fun b => b.uuid == d.bundle_uuid)).isNone) }

/-! ### Bundle operations -/

def get_bundle (st : State) (u : UUIDv) : Except APIError Bundle :=
  match st.findBundle u with
  | none => Except.error APIError.bundleNotFound
  | some b => Except.ok (_data_from_bundle st b)

def create_bundle (st : State) (collection_uuid : UUIDv) (slug title description : String) :
    Except APIError (Bundle × State) :=
  match st.findCollection collection_uuid with
  | none => Except.error APIError.collectionNotFound
  | some c =>
    let b : Models.Bundle := ⟨st.next_uuid, c.uuid, title, description, slug, []⟩
    let st2 := { st with bundles := st.bundles ++ [b], next_uuid := st.next_uuid + 1 }
    Except.ok (_data_from_bundle st2 b, st2)

/-- One pass of the `for str_field in ("title", "description", "slug")` loop
body: set the attribute from the field value. -/
def applyStrField (b : Models.Bundle) (k : String) (v : PyVal) : Models.Bundle :=
  if k = "title" then { b with title := pyStrOf v }
  else if k = "description" then { b with description := pyStrOf v }
  else if k = "slug" then { b with slug := pyStrOf v }
  else b

def removeKey (l : List (String × PyVal)) (k : String) : List (String × PyVal) :=
  l.filter (fun kv => kv.1 != k)

def popStrField (k : String) (acc : Models.Bundle × List (String × PyVal)) :
    Models.Bundle × List (String × PyVal) :=
  match acc.2.lookup k with
  | some v => (applyStrField acc.1 k v, removeKey acc.2 k)
  | none => acc

/-- Translation of `update_bundle`: pops title, description and slug, then
handles `collection_uuid` — the source converts that value with `str(...)`
and then runs `assert isinstance(..., UUID)`, which can never hold of a
string, so that branch always raises `AssertionError`; any leftover fields
raise `ValueError` before the row is saved. -/
def update_bundle (st : State) (bundle_uuid : UUIDv) (fields : List (String × PyVal)) :
    Except APIError (Bundle × State) :=
  match st.findBundle bundle_uuid with
  | none => Except.error APIError.bundleNotFound
  | some b0 =>
    let acc := popStrField "slug" (popStrField "description" (popStrField "title" (b0, fields)))
    let b1 := acc.1
    let rest := acc.2
    match rest.lookup "collection_uuid" with
    | some v =>
      if isinstanceUUID (PyVal.str (pyStrOf v)) then
        match st.collections.find? (fun c => toString c.uuid == pyStrOf v) with
        | none => Except.error APIError.collectionNotFound
        | some c =>
          let b2 := { b1 with collection_uuid := c.uuid }
          let rest2 := removeKey rest "collection_uuid"
          if rest2.isEmpty then
            let st2 := { st with bundles := st.bundles.map (fun b => if b.uuid == bundle_uuid then b2 else b) }
            Except.ok (_data_from_bundle st2 b2, st2)
          else Except.error APIError.valueError
      else Except.error APIError.assertionError
    | none =>
      if rest.isEmpty then
        let st2 := { st with bundles := st.bundles.map (fun b => if b.uuid == bundle_uuid then b1 else b) }
        Except.ok (_data_from_bundle st2 b1, st2)
      else Except.error APIError.valueError

/-- The bundle delete; drafts of the bundle cascade away per the foreign key
declared in the draft migration. -/
def delete_bundle (st : State) (u : UUIDv) : Except APIError State :=
  match st.findBundle u with
  | none => Except.error APIError.bundleNotFound
  | some _ =>
    Except.ok
      { st with
        bundles := st.bundles.filter (fun b => b.uuid != u),
        drafts := st.drafts.filter (fun d => d.bundle_uuid != u) }

/-! ### Draft operations -/

def get_draft (st : State) (u : UUIDv) : Except APIError Draft :=
  match st.findDraft u with
  | none => Except.error APIError.draftNotFound
  | some d => Except.ok (_data_from_draft d)

/-- Modelled from the spec: the staged data of a freshly created draft is
anchored to the current latest version of the bundle (0 if none) and has an
empty staged diff. -/
def newStagedDraft (st : State) (b : Models.Bundle) : StagedDraft :=
  match b.versions.getLast? with
  | some snap => ⟨st.clock, b.versions.length, snap.files, snap.links, [], []⟩
  | none => ⟨st.clock, 0, [], [], [], []⟩

def get_or_create_bundle_draft (st : State) (bundle_uuid : UUIDv) (draft_name : String) :
    Except APIError (Draft × State) :=
  match st.findBundle bundle_uuid with
  | none => Except.error APIError.bundleNotFound
  | some bundle =>
    match st.findDraftByName bundle.uuid draft_name with
    | some draft => Except.ok (_data_from_draft draft, st)
    | none =>
      let draft : Models.Draft := ⟨st.next_uuid, bundle.uuid, draft_name, newStagedDraft st bundle⟩
      Except.ok (_data_from_draft draft,
        { st with drafts := st.drafts ++ [draft],
                  next_uuid := st.next_uuid + 1, clock := st.clock + 1 })

/-! ### Bundle version operations -/

/-- Modelled from the spec: the remote REST lookup behind
`api_request("get", api_url("bundle_versions", ...))` — serves the stored
snapshot for the pair, failing with a not-found error when the bundle or
the version number does not exist. -/
def remoteBundleVersion (st : State) (bundle_uuid : UUIDv) (version_number : Nat) :
    Except APIError Snapshot :=
  match st.findBundle bundle_uuid with
  | none => Except.error APIError.versionNotFound
  | some b =>
    if version_number == 0 then Except.error APIError.versionNotFound
    else
      match b.versions[version_number - 1]? with
      | some snap => Except.ok snap
      | none => Except.error APIError.versionNotFound

def get_bundle_version (st : State) (bundle_uuid : UUIDv) (version_number : Nat) :
    Except APIError (Option Snapshot) :=
  if version_number == 0 then Except.ok none
  else (remoteBundleVersion st bundle_uuid version_number).map some

def get_bundle_version_files (st : State) (bundle_uuid : UUIDv) (version_number : Nat) :
    Except APIError (List BundleFile) :=
  if version_number == 0 then Except.ok []
  else (remoteBundleVersion st bundle_uuid version_number).map
    (fun snap => snap.files.map (fun pf => ⟨pf.1, pf.2.size, pf.2.hash_digest⟩))

def get_bundle_version_links (st : State) (bundle_uuid : UUIDv) (version_number : Nat) :
    Except APIError (List (String × LinkDetails)) :=
  if version_number == 0 then Except.ok []
  else (remoteBundleVersion st bundle_uuid version_number).map
    (fun snap => snap.links.map (fun nl => (nl.1, ⟨nl.1, nl.2.direct, nl.2.indirect⟩)))

/-! ### Merged bundle views -/

inductive FilesDictResult where
  | fromDraft (m : List (String × DraftFile))
  | fromVersion (m : List (String × BundleFile))
deriving DecidableEq

inductive LinksResult where
  | fromDraft (m : List (String × DraftLinkDetails))
  | fromVersion (m : List (String × LinkDetails))
deriving DecidableEq

def get_bundle_files_dict (st : State) (bundle_uuid : UUIDv) (use_draft : Option String) :
    Except APIError FilesDictResult :=
  match get_bundle st bundle_uuid with
  | Except.error e => Except.error e
  | Except.ok bundle =>
    match (if truthy use_draft then bundle.drafts.lookup (use_draft.getD "") else none) with
    | some du => (get_draft st du).map (fun d => FilesDictResult.fromDraft d.files)
    | none =>
      if bundle.latest_version == 0 then Except.ok (FilesDictResult.fromVersion [])
      else (get_bundle_version_files st bundle_uuid bundle.latest_version).map
        (fun fs => FilesDictResult.fromVersion (fs.map (fun f => (f.path, f))))

def get_bundle_links (st : State) (bundle_uuid : UUIDv) (use_draft : Option String) :
    Except APIError LinksResult :=
  match get_bundle st bundle_uuid with
  | Except.error e => Except.error e
  | Except.ok bundle =>
    match (if truthy use_draft then bundle.drafts.lookup (use_draft.getD "") else none) with
    | some du => (get_draft st du).map (fun d => LinksResult.fromDraft d.links)
    | none =>
      if bundle.latest_version == 0 then Except.ok (LinksResult.fromVersion [])
      else (get_bundle_version_links st bundle_uuid bundle.latest_version).map
        (fun ls => LinksResult.fromVersion ls)

/-! ### Link resolution as the spec words it -/

/-- Follows the words of the spec (Link Resolver): the indirect closure of a
direct link is the target version link manifest flattened — the union of the
target direct links and the target recorded indirect links. -/
def resolve_indirect (st : State) (direct : LinkReference) : List LinkReference :=
  match remoteBundleVersion st direct.bundle_uuid direct.version_num with
  | Except.error _ => []
  | Except.ok snap =>
    snap.links.map (fun nl => nl.2.direct) ++ (snap.links.map (fun nl => nl.2.indirect)).flatten

/-- Follows the words of the spec (`effective_links`): overlay the staged
link diff over the base snapshot links, recomputing every indirect closure
live via the Link Resolver against the currently staged direct target. -/
def effective_links_spec (st : State) (d : Models.Draft) : List (String × LinkManifestEntry) :=
  (d.staged_draft.base_links.filterMap fun nl =>
    match d.staged_draft.links_to_overwrite.lookup nl.1 with
    | some (LinkDiff.set r) => some (nl.1, ⟨r, resolve_indirect st r⟩)
    | some LinkDiff.delete => none
    | none => some (nl.1, ⟨nl.2.direct, resolve_indirect st nl.2.direct⟩))
  ++ (d.staged_draft.links_to_overwrite.filterMap fun nd =>
    match nd.2 with
    | LinkDiff.set r =>
        if (d.staged_draft.base_links.lookup nd.1).isSome then none
        else some (nd.1, ⟨r, resolve_indirect st r⟩)
    | LinkDiff.delete => none)

/-! ### Base64 transport encoding (`encode_str_for_draft`) -/

def b64chr (n : Nat) : Char :=
  "ABCDEFGHIJKLMNOPQRSTUVWXYZabcdefghijklmnopqrstuvwxyz0123456789+/".toList.getD n '?'

/-- Standard base64 encoding of a byte sequence, as `base64.b64encode`. -/
def b64encode : List Nat → List Char
  | [] => []
  | [a] => [b64chr (a / 4), b64chr (a % 4 * 16), '=', '=']
  | [a, b] => [b64chr (a / 4), b64chr (a % 4 * 16 + b / 16), b64chr (b % 16 * 4), '=']
  | a :: b :: c :: rest =>
      b64chr (a / 4) :: b64chr (a % 4 * 16 + b / 16) :: b64chr (b % 16 * 4 + c / 64)
        :: b64chr (c % 64) :: b64encode rest

def b64ord (ch : Char) : Nat :=
  ("ABCDEFGHIJKLMNOPQRSTUVWXYZabcdefghijklmnopqrstuvwxyz0123456789+/".toList.indexOf ch)

/-- Base64 decoding, the inverse of `b64encode` on its image: a final chunk
padded with one or two `=` characters yields two or one bytes, a full chunk
yields three bytes. -/
def b64decode : List Char → Option (List Nat)
  | [] => some []
  | w :: x :: y :: z :: rest =>
      if z = '=' then
        if rest = [] then
          if y = '=' then some [b64ord w * 4 + b64ord x / 16]
          else some [b64ord w * 4 + b64ord x / 16, b64ord x % 16 * 16 + b64ord y / 4]
        else none
      else
        (b64decode rest).map (fun bs =>
          (b64ord w * 4 + b64ord x / 16) :: (b64ord x % 16 * 16 + b64ord y / 4)
            :: (b64ord y % 4 * 64 + b64ord z) :: bs)
  | _ => none

/-- Content handed to `write_draft_file`: a text string or raw bytes, the two
input kinds `encode_str_for_draft` accepts. -/
inductive ContentsVal where
  | text (s : String)
  | binary (b : List Nat)
deriving DecidableEq

def utf8Bytes (s : String) : List Nat := s.toUTF8.toList.map (fun b => b.toNat)

/-- Translation of `encode_str_for_draft`: text is first encoded as UTF-8,
then the bytes are base64 encoded. -/
def encode_str_for_draft : ContentsVal → List Char
  | ContentsVal.text s => b64encode (utf8Bytes s)
  | ContentsVal.binary b => b64encode b

/-- The raw byte sequence of a content value. -/
def contentBytes : ContentsVal → List Nat
  | ContentsVal.text s => utf8Bytes s
  | ContentsVal.binary b => b

def contentsValid : Option ContentsVal → Prop
  | none => True
  | some (ContentsVal.text _) => True
  | some (ContentsVal.binary b) => ∀ v ∈ b, v < 256

/-- Modelled from the spec: the content digest — a deterministic hash of the
byte sequence; a concrete deterministic stand-in for the cryptographic hash. -/
def hashDigest (b : List Nat) : String :=
  toString (b.foldl (fun h x => h * 257 + x + 1) 7)

/-! ### Draft writes -/

/-- Association map update with replace-or-append semantics: the map keyed at
`k` becomes `v`, every other key is untouched. -/
def insertA (l : List (String × FileDiff)) (k : String) (v : FileDiff) :
    List (String × FileDiff) :=
  l.filter (fun kv => kv.1 != k) ++ [(k, v)]

/-- The `data` payload `write_draft_file` sends: one file entry for the path,
holding the base64 text when content is present and the null delete marker
when it is absent. -/
def draftWritePayload (path : String) (contents : Option ContentsVal) :
    List (String × Option (List Char)) :=
  [(path, contents.map encode_str_for_draft)]

/-- Modelled from the spec: `DraftFileUpdateSerializer` validation — decodes
each base64 file value back to raw bytes (the core deals in raw bytes, the
encoding exists only for transport), rejecting undecodable values. -/
def serializerValidateFiles (payload : List (String × Option (List Char))) :
    Except APIError (List (String × Option (List Nat))) :=
  payload.foldr
    (fun pv acc =>
      match acc with
      | Except.error e => Except.error e
      | Except.ok rest =>
        match pv.2 with
        | none => Except.ok ((pv.1, none) :: rest)
        | some chars =>
          match b64decode chars with
          | none => Except.error APIError.validationError
          | some bytes => Except.ok ((pv.1, some bytes) :: rest))
    (Except.ok [])

/-- The staged diff entry a write call produces for its path. -/
def stagedDiffFor : Option ContentsVal → FileDiff
  | some c => FileDiff.write (hashDigest (contentBytes c)) (contentBytes c).length
  | none => FileDiff.delete

/-- One staged file entry applied to the staged draft data: bytes present
stage a write of the content digest and size, bytes absent stage a delete. -/
def stageOne (sd : StagedDraft) (pv : String × Option (List Nat)) : StagedDraft :=
  match pv.2 with
  | some bytes =>
      { sd with files_to_overwrite :=
          (insertA sd.files_to_overwrite pv.1
            (FileDiff.write (hashDigest bytes) bytes.length)) }
  | none =>
      { sd with files_to_overwrite :=
          (insertA sd.files_to_overwrite pv.1 FileDiff.delete) }

/-- The draft row after a draft repo update: the staged diff has every file
entry applied and the timestamp advanced to the clock. -/
def stageDraftRow (files_to_write : List (String × Option (List Nat))) (clock : Nat)
    (d : Models.Draft) : Models.Draft :=
  { d with staged_draft :=
      { (files_to_write.foldl stageOne d.staged_draft) with updated_at := clock } }

/-- Modelled from the spec: `DraftRepo.update` — stores the written blobs in
the Content Store and stages, for each file entry, a write (digest and size)
when bytes are present and a delete when they are absent; advances the draft
`updated_at`. -/
def draftRepoUpdate (st : State) (draft_uuid : UUIDv)
    (files_to_write : List (String × Option (List Nat))) : Except APIError State :=
  match st.findDraft draft_uuid with
  | none => Except.error APIError.draftNotFound
  | some _ =>
    Except.ok
      { st with
        blobs := st.blobs ++ files_to_write.filterMap
          (fun pv => pv.2.map (fun b => (hashDigest b, b))),
        drafts := st.drafts.map (fun d =>
          if d.uuid == draft_uuid then stageDraftRow files_to_write st.clock d else d),
        clock := st.clock + 1 }

/-- Translation of `write_draft_file`: build the single-entry payload, run it
through the serializer, then hand the validated file map to the draft repo
(the call stages no link entries). -/
def write_draft_file (st : State) (draft_uuid : UUIDv) (path : String)
    (contents : Option ContentsVal) : Except APIError State :=
  match serializerValidateFiles (draftWritePayload path contents) with
  | Except.error e => Except.error e
  | Except.ok files_to_write => draftRepoUpdate st draft_uuid files_to_write

/-! ### The per-bundle draft-name uniqueness invariant -/

/-- No two draft rows share the same bundle and name — the
`unique_together = (bundle, name)` constraint of the draft migration. -/
def DraftsUnique (st : State) : Prop :=
  st.drafts.Pairwise (fun a b => ¬(a.bundle_uuid = b.bundle_uuid ∧ a.name = b.name))

/-! ### Concrete sample data used to evaluate the operations -/

def snapA1 : Snapshot :=
  ⟨[("a.txt", ⟨"h1", 5⟩)], [("lnk", ⟨⟨20, 1⟩, []⟩)]⟩

def snapB1 : Snapshot := ⟨[], []⟩

def bundleA : Models.Bundle := ⟨10, 1, "A", "", "a", [snapA1]⟩

def bundleB : Models.Bundle := ⟨20, 1, "B", "", "b", [snapB1]⟩

def bundleC : Models.Bundle := ⟨40, 1, "C", "", "c", []⟩

def sdA : StagedDraft :=
  ⟨5, 1, snapA1.files, snapA1.links, [("b.txt", FileDiff.write "h2" 3)], []⟩

def draftA : Models.Draft := ⟨30, 10, "studio_draft", sdA⟩

def demoState : State :=
  ⟨[⟨1, "Col"⟩], [bundleA, bundleB, bundleC], [draftA], [], 100, 6⟩

/-! ### Helper lemmas -/

theorem b64ord_b64chr : ∀ n < 64, b64ord (b64chr n) = n := by decide

theorem b64chr_ne_pad : ∀ n < 64, b64chr n ≠ '=' := by decide

theorem b64decode_b64encode (bs : List Nat) (h : ∀ v ∈ bs, v < 256) :
    b64decode (b64encode bs) = some bs := by
  match bs with
  | [] => rfl
  | [a] =>
    have ha : a < 256 := h a (by simp)
    have e1 : b64ord (b64chr (a / 4)) = a / 4 := b64ord_b64chr _ (by omega)
    have e2 : b64ord (b64chr (a % 4 * 16)) = a % 4 * 16 := b64ord_b64chr _ (by omega)
    simp only [b64encode, b64decode, reduceIte, e1, e2, Option.some.injEq, List.cons.injEq,
      and_true]
    omega
  | [a, b] =>
    have ha : a < 256 := h a (by simp)
    have hb : b < 256 := h b (by simp)
    have e1 : b64ord (b64chr (a / 4)) = a / 4 := b64ord_b64chr _ (by omega)
    have e2 : b64ord (b64chr (a % 4 * 16 + b / 16)) = a % 4 * 16 + b / 16 :=
      b64ord_b64chr _ (by omega)
    have e3 : b64ord (b64chr (b % 16 * 4)) = b % 16 * 4 := b64ord_b64chr _ (by omega)
    have ne3 : b64chr (b % 16 * 4) ≠ '=' := b64chr_ne_pad _ (by omega)
    simp only [b64encode, b64decode, reduceIte, if_neg ne3, e1, e2, e3, Option.some.injEq,
      List.cons.injEq, and_true]
    constructor
    · omega
    · omega
  | a :: b :: c :: rest =>
    have ha : a < 256 := h a (by simp)
    have hb : b < 256 := h b (by simp)
    have hc : c < 256 := h c (by simp)
    have ih : b64decode (b64encode rest) = some rest :=
      b64decode_b64encode rest (fun v hv =>
        h v (List.mem_cons_of_mem _ (List.mem_cons_of_mem _ (List.mem_cons_of_mem _ hv))))
    have e1 : b64ord (b64chr (a / 4)) = a / 4 := b64ord_b64chr _ (by omega)
    have e2 : b64ord (b64chr (a % 4 * 16 + b / 16)) = a % 4 * 16 + b / 16 :=
      b64ord_b64chr _ (by omega)
    have e3 : b64ord (b64chr (b % 16 * 4 + c / 64)) = b % 16 * 4 + c / 64 :=
      b64ord_b64chr _ (by omega)
    have e4 : b64ord (b64chr (c % 64)) = c % 64 := b64ord_b64chr _ (by omega)
    have ne4 : b64chr (c % 64) ≠ '=' := b64chr_ne_pad _ (by omega)
    simp only [b64encode, b64decode, if_neg ne4, ih, Option.map_some', e1, e2, e3, e4,
      Option.some.injEq, List.cons.injEq, and_true, true_and]
    omega
termination_by bs.length

theorem utf8Bytes_lt (s : String) : ∀ v ∈ utf8Bytes s, v < 256 := by
  intro v hv
  simp only [utf8Bytes, List.mem_map] at hv
  obtain ⟨b, _, rfl⟩ := hv
  exact b.toNat_lt

theorem contentBytes_lt (c : ContentsVal) (h : contentsValid (some c)) :
    ∀ v ∈ contentBytes c, v < 256 := by
  cases c with
  | text s => exact utf8Bytes_lt s
  | binary b => exact h

theorem lookup_insertA_self (l : List (String × FileDiff)) (k : String) (v : FileDiff) :
    (insertA l k v).lookup k = some v := by
  induction l with
  | nil => simp [insertA]
  | cons hd tl ih =>
    obtain ⟨k1, v1⟩ := hd
    by_cases hk : k1 = k
    · simpa [insertA, hk] using ih
    · have hne : (k == k1) = false := beq_eq_false_iff_ne.mpr (Ne.symm hk)
      simp only [insertA, List.filter_cons, bne_iff_ne, ne_eq, hk, not_false_eq_true,
        if_pos, List.cons_append, List.lookup_cons, hne] at ih ⊢
      exact ih

theorem lookup_insertA_ne (l : List (String × FileDiff)) (k q : String) (v : FileDiff)
    (h : q ≠ k) : (insertA l k v).lookup q = l.lookup q := by
  have hne : (q == k) = false := beq_eq_false_iff_ne.mpr h
  induction l with
  | nil => simp [insertA, List.lookup_cons, hne]
  | cons hd tl ih =>
    obtain ⟨k1, v1⟩ := hd
    by_cases hk : k1 = k
    · simp only [insertA, List.filter_cons, bne_iff_ne, ne_eq, hk, not_true_eq_false,
        if_false, List.lookup_cons, hne] at ih ⊢
      exact ih
    · by_cases hq : q = k1
      · simp [insertA, List.filter_cons, bne_iff_ne, hk, List.lookup_cons, hq]
      · have hq2 : (q == k1) = false := beq_eq_false_iff_ne.mpr hq
        simp only [insertA, List.filter_cons, bne_iff_ne, ne_eq, hk, not_false_eq_true,
          if_pos, List.cons_append, List.lookup_cons, hq2] at ih ⊢
        exact ih

theorem find?_map_keyed (l : List Models.Draft) (u : UUIDv) (f : Models.Draft → Models.Draft)
    (hf : ∀ d, (f d).uuid = d.uuid) :
    (l.map (fun d => if d.uuid == u then f d else d)).find? (fun d => d.uuid == u)
      = (l.find? (fun d => d.uuid == u)).map f := by
  induction l with
  | nil => rfl
  | cons hd tl ih =>
    by_cases hu : hd.uuid = u
    · simp [List.find?_cons, hu, hf]
    · simpa [List.find?_cons, hu, beq_iff_eq] using ih

theorem data_latest_version (st : State) (b : Models.Bundle) :
    (_data_from_bundle st b).latest_version = b.versions.length := by
  unfold _data_from_bundle Models.Bundle.get_bundle_version
  by_cases he : b.versions.isEmpty
  · simp [List.isEmpty_iff.mp he]
  · simp [he]

/-- C2 (code bug evidence): for the sample draft over a base snapshot that
has a link, the effective links view the spec prescribes is non-empty, yet
the draft data built by the source carries the empty links map, and the
links read through get_bundle_links with the draft selected is empty too. -/
theorem draft_links_todo_returns_empty_map :
    effective_links_spec demoState draftA = [("lnk", ⟨⟨20, 1⟩, []⟩)]
    ∧ (_data_from_draft draftA).links = []
    ∧ get_bundle_links demoState 10 (some "studio_draft")
        = Except.ok (LinksResult.fromDraft []) := by
  refine ⟨by decide, rfl, by decide⟩

/-- C4 counterexample: at a concrete state holding bundle 10,
get_bundle_version with version number 0 returns the null success value and
does not fail with a version-not-found error. -/
theorem get_bundle_version_zero_not_error :
    get_bundle_version demoState 10 0 = Except.ok none
    ∧ get_bundle_version demoState 10 0 ≠ Except.error APIError.versionNotFound := by
  refine ⟨rfl, by decide⟩

/-- C4 (amended): a nonzero version number exceeding the bundle latest
version fails with VersionNotFound, while version number 0 short-circuits to
the null value (and the files variant to the empty list) without failing. -/
theorem bundle_version_lookup_bounds (st : State) (u : UUIDv) (b : Models.Bundle) (v : Nat)
    (hb : st.findBundle u = some b) (hv : v ≠ 0) (hgt : b.versions.length < v) :
    get_bundle_version st u v = Except.error APIError.versionNotFound
    ∧ get_bundle_version st u 0 = Except.ok none
    ∧ get_bundle_version_files st u 0 = Except.ok [] := by
  have hvb : (v == 0) = false := by simp [hv]
  have hnone : b.versions[v - 1]? = none := by
    rw [List.getElem?_eq_none]
    omega
  refine ⟨?_, rfl, rfl⟩
  simp [get_bundle_version, hvb, remoteBundleVersion, hb, hnone, Except.map]

/-- C4 witness. -/
theorem bundle_version_lookup_bounds_witness :
    get_bundle_version demoState 10 2 = Except.error APIError.versionNotFound
    ∧ get_bundle_version demoState 10 0 = Except.ok none
    ∧ get_bundle_version_files demoState 10 0 = Except.ok [] :=
  bundle_version_lookup_bounds demoState 10 bundleA 2 rfl (by decide) (by decide)

/-- C6 (code bug evidence): with bundle 10 and an existing collection 1 in
the state, passing collection_uuid to update_bundle fails with an assertion
error (the source converts the value with str and then asserts it is a UUID
instance, which never holds), even though the docstring promises the
collection can be updated; an unknown field is rejected with ValueError. -/
theorem update_bundle_collection_uuid_always_asserts :
    demoState.findCollection 1 = some ⟨1, "Col"⟩
    ∧ update_bundle demoState 10 [("collection_uuid", PyVal.uuid 1)]
        = Except.error APIError.assertionError
    ∧ update_bundle demoState 10 [("title", PyVal.str "T"), ("bogus", PyVal.str "x")]
        = Except.error APIError.valueError := by
  refine ⟨rfl, by decide, by decide⟩

/-- C8: the latest_version reported by the bundle data is 0 exactly when the
bundle has no committed version, and equals the version number of the latest
committed version when one exists. -/
theorem latest_version_zero_iff_no_version (st : State) (b : Models.Bundle) :
    ((_data_from_bundle st b).latest_version = 0 ↔ b.versions = [])
    ∧ (∀ n, b.get_bundle_version = some n → (_data_from_bundle st b).latest_version = n) := by
  constructor
  · rw [data_latest_version]
    constructor
    · exact fun h0 => List.length_eq_zero.mp h0
    · intro hnil
      simp [hnil]
  · intro n hn
    rw [data_latest_version]
    unfold Models.Bundle.get_bundle_version at hn
    by_cases he : b.versions.isEmpty
    · rw [if_pos he] at hn
      exact Option.noConfusion hn
    · rw [if_neg he] at hn
      exact Option.some.inj hn

/-- C8 witness. -/
theorem latest_version_zero_iff_no_version_witness :
    ((_data_from_bundle demoState bundleA).latest_version = 0 ↔ bundleA.versions = [])
    ∧ (∀ n, bundleA.get_bundle_version = some n
       → (_data_from_bundle demoState bundleA).latest_version = n) :=
  latest_version_zero_iff_no_version demoState bundleA

/-- C3: every entry of the effective file map carried by the draft data
reports modified = true exactly when its path has a staged diff entry in the
draft; a path carried over unchanged from the base snapshot reports false. -/
theorem draft_file_modified_iff_staged (d : Models.Draft) (p : String) (df : DraftFile)
    (hmem : (p, df) ∈ (_data_from_draft d).files) :
    (df.modified = true ↔ (d.staged_draft.files_to_overwrite.lookup p).isSome = true) := by
  unfold _data_from_draft at hmem
  simp only [List.mem_map] at hmem
  obtain ⟨pf, hpf, heq⟩ := hmem
  injection heq with h1 h2
  subst h1
  subst h2
  exact Iff.rfl

/-- C3 witness: the staged path of the sample draft reports modified = true. -/
theorem draft_file_modified_iff_staged_witness :
    (DraftFile.mk "b.txt" 3 "b.txt" "h2" true).modified = true
    ↔ (draftA.staged_draft.files_to_overwrite.lookup "b.txt").isSome = true :=
  draft_file_modified_iff_staged draftA "b.txt" ⟨"b.txt", 3, "b.txt", "h2", true⟩ (by decide)

/-- C5: the three getters fail with their NotFound error exactly when no
entity with the uuid exists, and otherwise return the converted metadata of
the found entity; each is a pure read of the state (the functions return
data only, no state). -/
theorem notfound_error_iffs (st : State) (u : UUIDv) :
    (get_collection st u = Except.error APIError.collectionNotFound
       ↔ ¬∃ c ∈ st.collections, c.uuid = u)
    ∧ (∀ c, st.findCollection u = some c
       → get_collection st u = Except.ok (_data_from_collection c))
    ∧ (get_bundle st u = Except.error APIError.bundleNotFound
       ↔ ¬∃ b ∈ st.bundles, b.uuid = u)
    ∧ (∀ b, st.findBundle u = some b
       → get_bundle st u = Except.ok (_data_from_bundle st b))
    ∧ (get_draft st u = Except.error APIError.draftNotFound
       ↔ ¬∃ d ∈ st.drafts, d.uuid = u)
    ∧ (∀ d, st.findDraft u = some d
       → get_draft st u = Except.ok (_data_from_draft d)) := by
  refine ⟨?_, ?_, ?_, ?_, ?_, ?_⟩
  · cases hc : st.findCollection u with
    | none =>
      simp only [get_collection, hc]
      simp only [State.findCollection, List.find?_eq_none, beq_iff_eq] at hc
      simp only [eq_self_iff_true, true_iff]
      rintro ⟨c, hmem, hcu⟩
      exact hc c hmem hcu
    | some c =>
      simp only [get_collection, hc]
      have hmem := List.mem_of_find?_eq_some hc
      have hpred := List.find?_some hc
      simp only [beq_iff_eq] at hpred
      constructor
      · intro habs
        exact Except.noConfusion habs
      · intro habs
        exact absurd ⟨c, hmem, hpred⟩ habs
  · intro c hc
    simp [get_collection, hc]
  · cases hc : st.findBundle u with
    | none =>
      simp only [get_bundle, hc]
      simp only [State.findBundle, List.find?_eq_none, beq_iff_eq] at hc
      simp only [eq_self_iff_true, true_iff]
      rintro ⟨b, hmem, hbu⟩
      exact hc b hmem hbu
    | some b =>
      simp only [get_bundle, hc]
      have hmem := List.mem_of_find?_eq_some hc
      have hpred := List.find?_some hc
      simp only [beq_iff_eq] at hpred
      constructor
      · intro habs
        exact Except.noConfusion habs
      · intro habs
        exact absurd ⟨b, hmem, hpred⟩ habs
  · intro b hb
    simp [get_bundle, hb]
  · cases hc : st.findDraft u with
    | none =>
      simp only [get_draft, hc]
      simp only [State.findDraft, List.find?_eq_none, beq_iff_eq] at hc
      simp only [eq_self_iff_true, true_iff]
      rintro ⟨d, hmem, hdu⟩
      exact hc d hmem hdu
    | some d =>
      simp only [get_draft, hc]
      have hmem := List.mem_of_find?_eq_some hc
      have hpred := List.find?_some hc
      simp only [beq_iff_eq] at hpred
      constructor
      · intro habs
        exact Except.noConfusion habs
      · intro habs
        exact absurd ⟨d, hmem, hpred⟩ habs
  · intro d hd
    simp [get_draft, hd]

/-- C5 witness. -/
theorem notfound_error_iffs_witness :
    get_collection demoState 1 = Except.ok (_data_from_collection ⟨1, "Col"⟩)
    ∧ get_draft demoState 99 = Except.error APIError.draftNotFound := by
  constructor
  · exact (notfound_error_iffs demoState 1).2.1 ⟨1, "Col"⟩ rfl
  · exact (notfound_error_iffs demoState 99).2.2.2.2.1.mpr (by decide)

/-- C1: get_or_create_bundle_draft is idempotent — when a draft with the
name exists for the bundle it is returned with the state unchanged; when
none exists exactly one draft for the bundle with the name is appended; and
a second call with the same arguments returns the same draft and state. -/
theorem get_or_create_bundle_draft_idempotent (st : State) (bu : UUIDv) (n : String)
    (bundle : Models.Bundle) (hb : st.findBundle bu = some bundle) :
    (∀ d, st.findDraftByName bundle.uuid n = some d →
       get_or_create_bundle_draft st bu n = Except.ok (_data_from_draft d, st))
    ∧ (st.findDraftByName bundle.uuid n = none →
       ∃ nd : Models.Draft, nd.bundle_uuid = bundle.uuid ∧ nd.name = n ∧
         get_or_create_bundle_draft st bu n = Except.ok (_data_from_draft nd,
           { st with drafts := st.drafts ++ [nd],
                     next_uuid := st.next_uuid + 1, clock := st.clock + 1 }))
    ∧ (∀ res, get_or_create_bundle_draft st bu n = Except.ok res →
       get_or_create_bundle_draft res.2 bu n = Except.ok res) := by
  refine ⟨?_, ?_, ?_⟩
  · intro d hd
    simp [get_or_create_bundle_draft, hb, hd]
  · intro hd
    refine ⟨⟨st.next_uuid, bundle.uuid, n, newStagedDraft st bundle⟩, rfl, rfl, ?_⟩
    simp [get_or_create_bundle_draft, hb, hd]
  · intro res hres
    cases hd : st.findDraftByName bundle.uuid n with
    | some d =>
      simp only [get_or_create_bundle_draft, hb, hd] at hres
      injection hres with h1
      rw [← h1]
      simp [get_or_create_bundle_draft, hb, hd]
    | none =>
      simp only [get_or_create_bundle_draft, hb, hd] at hres
      injection hres with h1
      rw [← h1]
      have hb2 : State.findBundle
          { st with drafts := st.drafts ++ [⟨st.next_uuid, bundle.uuid, n, newStagedDraft st bundle⟩],
                    next_uuid := st.next_uuid + 1, clock := st.clock + 1 } bu
          = some bundle := hb
      have hd2 : State.findDraftByName
          { st with drafts := st.drafts ++ [⟨st.next_uuid, bundle.uuid, n, newStagedDraft st bundle⟩],
                    next_uuid := st.next_uuid + 1, clock := st.clock + 1 } bundle.uuid n
          = some ⟨st.next_uuid, bundle.uuid, n, newStagedDraft st bundle⟩ := by
        simp only [State.findDraftByName] at hd ⊢
        rw [List.find?_append, hd]
        simp
      simp [get_or_create_bundle_draft, hb2, hd2]

/-- C1 witness: with the sample state, the existing studio draft of
bundle 10 is returned unchanged, twice. -/
theorem get_or_create_bundle_draft_idempotent_witness :
    get_or_create_bundle_draft demoState 10 "studio_draft"
      = Except.ok (_data_from_draft draftA, demoState) :=
  (get_or_create_bundle_draft_idempotent demoState 10 "studio_draft" bundleA rfl).1 draftA rfl

/-- C10: when the given draft name does not name a draft of the bundle, the
merged file and link reads do not fail with a draft-not-found error: they
fall back to the latest committed version, or to the empty map when the
bundle has no committed version. -/
theorem bundle_reads_fall_back_without_draft (st : State) (bu : UUIDv) (b : Models.Bundle)
    (n : String) (hb : st.findBundle bu = some b)
    (hn : ((_data_from_bundle st b).drafts.lookup n) = none) :
    (b.versions = [] →
      get_bundle_files_dict st bu (some n) = Except.ok (FilesDictResult.fromVersion [])
      ∧ get_bundle_links st bu (some n) = Except.ok (LinksResult.fromVersion []))
    ∧ (∀ snap, b.versions.getLast? = some snap →
      get_bundle_files_dict st bu (some n) = Except.ok (FilesDictResult.fromVersion
        (snap.files.map (fun pf => (pf.1, ⟨pf.1, pf.2.size, pf.2.hash_digest⟩))))
      ∧ get_bundle_links st bu (some n) = Except.ok (LinksResult.fromVersion
        (snap.links.map (fun nl => (nl.1, ⟨nl.1, nl.2.direct, nl.2.indirect⟩))))) := by
  have hgb : get_bundle st bu = Except.ok (_data_from_bundle st b) := by
    simp [get_bundle, hb]
  constructor
  · intro hnil
    have hlv : (_data_from_bundle st b).latest_version = 0 := by
      rw [data_latest_version, hnil]
      rfl
    constructor
    · simp [get_bundle_files_dict, hgb, hn, ite_self, hlv]
    · simp [get_bundle_links, hgb, hn, ite_self, hlv]
  · intro snap hsnap
    have hne : b.versions ≠ [] := by
      intro hnil
      rw [hnil] at hsnap
      exact Option.noConfusion hsnap
    have hlv : (_data_from_bundle st b).latest_version = b.versions.length :=
      data_latest_version st b
    have hlen : b.versions.length ≠ 0 := by
      intro h0
      exact hne (List.length_eq_zero.mp h0)
    have hremote : remoteBundleVersion st bu b.versions.length = Except.ok snap := by
      have hget : b.versions[b.versions.length - 1]? = some snap := by
        rw [← List.getLast?_eq_getElem?]
        exact hsnap
      simp [remoteBundleVersion, hb, hlen, hget]
    constructor
    · simp [get_bundle_files_dict, hgb, hn, ite_self, hlv, hlen, get_bundle_version_files,
        hremote, Except.map, List.map_map]
    · simp [get_bundle_links, hgb, hn, ite_self, hlv, hlen, get_bundle_version_links,
        hremote, Except.map]

/-- C10 witness: bundle 10 with an unknown draft name falls back to the
files and links of its latest version. -/
theorem bundle_reads_fall_back_without_draft_witness :
    get_bundle_files_dict demoState 10 (some "nope") = Except.ok (FilesDictResult.fromVersion
      (snapA1.files.map (fun pf => (pf.1, ⟨pf.1, pf.2.size, pf.2.hash_digest⟩))))
    ∧ get_bundle_links demoState 10 (some "nope") = Except.ok (LinksResult.fromVersion
      (snapA1.links.map (fun nl => (nl.1, ⟨nl.1, nl.2.direct, nl.2.indirect⟩)))) :=
  (bundle_reads_fall_back_without_draft demoState 10 bundleA "nope" rfl (by decide)).2
    snapA1 (by decide)

end Blockstore

namespace Blockstore

/-- C7: write_draft_file sends a transport payload holding exactly one file
entry — the base64 encoding of the raw content bytes when content is
present, the null delete marker otherwise — and stages exactly one diff
entry for the path: a write of the content digest and size, or a delete;
every other staged path is untouched, and written bytes land in the content
store. -/
theorem write_draft_file_stages_single_entry (st : State) (du : UUIDv) (p : String)
    (contents : Option ContentsVal) (d : Models.Draft)
    (hd : st.findDraft du = some d) (hv : contentsValid contents) :
    draftWritePayload p contents
      = [(p, contents.map (fun c => b64encode (contentBytes c)))]
    ∧ ∃ st2, write_draft_file st du p contents = Except.ok st2
      ∧ (∃ d2, st2.findDraft du = some d2
         ∧ d2.uuid = d.uuid ∧ d2.bundle_uuid = d.bundle_uuid ∧ d2.name = d.name
         ∧ d2.staged_draft.files_to_overwrite.lookup p = some (stagedDiffFor contents)
         ∧ ∀ q, q ≠ p → d2.staged_draft.files_to_overwrite.lookup q
             = d.staged_draft.files_to_overwrite.lookup q)
      ∧ (∀ c, contents = some c → (hashDigest (contentBytes c), contentBytes c) ∈ st2.blobs) := by
  have henc : ∀ c : ContentsVal, encode_str_for_draft c = b64encode (contentBytes c) := by
    intro c
    cases c <;> rfl
  refine ⟨?_, ?_⟩
  · cases contents with
    | none => rfl
    | some c => simp [draftWritePayload, henc]
  · have hser : serializerValidateFiles (draftWritePayload p contents)
        = Except.ok [(p, contents.map contentBytes)] := by
      cases contents with
      | none => rfl
      | some c =>
        have hrt : b64decode (b64encode (contentBytes c)) = some (contentBytes c) :=
          b64decode_b64encode (contentBytes c) (contentBytes_lt c hv)
        simp [serializerValidateFiles, draftWritePayload, henc, hrt]
    have hw : write_draft_file st du p contents
        = draftRepoUpdate st du [(p, contents.map contentBytes)] := by
      unfold write_draft_file
      rw [hser]
    have hd0 : st.drafts.find? (fun x => x.uuid == du) = some d := hd
    rw [hw]
    unfold draftRepoUpdate
    rw [hd]
    refine ⟨_, rfl, ?_, ?_⟩
    · refine ⟨stageDraftRow [(p, contents.map contentBytes)] st.clock d, ?_, rfl, rfl, rfl, ?_, ?_⟩
      · show (st.drafts.map (fun d0 => if d0.uuid == du
            then stageDraftRow [(p, contents.map contentBytes)] st.clock d0 else d0)).find?
            (fun d0 => d0.uuid == du) = _
        rw [find?_map_keyed st.drafts du
          (stageDraftRow [(p, contents.map contentBytes)] st.clock) (fun d0 => rfl), hd0]
        rfl
      · have hfo : (stageDraftRow [(p, contents.map contentBytes)] st.clock d).staged_draft.files_to_overwrite
            = insertA d.staged_draft.files_to_overwrite p (stagedDiffFor contents) := by
          cases contents <;> rfl
        rw [hfo]
        exact lookup_insertA_self _ p _
      · intro q hq
        have hfo : (stageDraftRow [(p, contents.map contentBytes)] st.clock d).staged_draft.files_to_overwrite
            = insertA d.staged_draft.files_to_overwrite p (stagedDiffFor contents) := by
          cases contents <;> rfl
        rw [hfo]
        exact lookup_insertA_ne _ p q _ hq
    · intro c hc
      subst hc
      show (hashDigest (contentBytes c), contentBytes c)
        ∈ st.blobs ++ [(p, (some c).map contentBytes)].filterMap
            (fun pv => pv.2.map (fun b => (hashDigest b, b)))
      simp

/-- C7 witness. -/
theorem write_draft_file_stages_single_entry_witness :
    draftWritePayload "a.txt" (some (ContentsVal.binary [104, 105]))
      = [("a.txt", some (b64encode (contentBytes (ContentsVal.binary [104, 105]))))]
    ∧ ∃ st2, write_draft_file demoState 30 "a.txt" (some (ContentsVal.binary [104, 105]))
        = Except.ok st2
      ∧ (∃ d2, st2.findDraft 30 = some d2
         ∧ d2.uuid = draftA.uuid ∧ d2.bundle_uuid = draftA.bundle_uuid ∧ d2.name = draftA.name
         ∧ d2.staged_draft.files_to_overwrite.lookup "a.txt"
             = some (stagedDiffFor (some (ContentsVal.binary [104, 105])))
         ∧ ∀ q, q ≠ "a.txt" → d2.staged_draft.files_to_overwrite.lookup q
             = draftA.staged_draft.files_to_overwrite.lookup q)
      ∧ (∀ c, (some (ContentsVal.binary [104, 105])) = some c
         → (hashDigest (contentBytes c), contentBytes c) ∈ st2.blobs) := by
  have hval : contentsValid (some (ContentsVal.binary [104, 105])) := by
    show ∀ v ∈ ([104, 105] : List Nat), v < 256
    decide
  have h := write_draft_file_stages_single_entry demoState 30 "a.txt"
    (some (ContentsVal.binary [104, 105])) draftA rfl hval
  simpa using h

end Blockstore

namespace Blockstore

/-- C9: the per-bundle draft-name uniqueness invariant is preserved by every
state-changing operation, and creating a second draft with an existing name
for the same bundle is impossible — get_or_create_bundle_draft returns the
existing draft and leaves the state unchanged. -/
theorem draft_name_unique_invariant (st : State) (h : DraftsUnique st) :
    (∀ t, DraftsUnique (create_collection st t).2)
    ∧ (∀ u t r, update_collection st u t = Except.ok r → DraftsUnique r.2)
    ∧ (∀ u st2, delete_collection st u = Except.ok st2 → DraftsUnique st2)
    ∧ (∀ cu s t de r, create_bundle st cu s t de = Except.ok r → DraftsUnique r.2)
    ∧ (∀ u fs r, update_bundle st u fs = Except.ok r → DraftsUnique r.2)
    ∧ (∀ u st2, delete_bundle st u = Except.ok st2 → DraftsUnique st2)
    ∧ (∀ bu n r, get_or_create_bundle_draft st bu n = Except.ok r → DraftsUnique r.2)
    ∧ (∀ du p c st2, write_draft_file st du p c = Except.ok st2 → DraftsUnique st2)
    ∧ (∀ bu n d r, st.findDraftByName bu n = some d
       → get_or_create_bundle_draft st bu n = Except.ok r
       → r.2 = st ∧ r.1 = _data_from_draft d) := by
  refine ⟨?_, ?_, ?_, ?_, ?_, ?_, ?_, ?_, ?_⟩
  · intro t
    exact h
  · intro u t r hr
    unfold update_collection at hr
    split at hr
    · exact Except.noConfusion hr
    · injection hr with h1
      rw [← h1]
      exact h
  · intro u st2 hr
    unfold delete_collection at hr
    split at hr
    · exact Except.noConfusion hr
    · injection hr with h1
      rw [← h1]
      exact List.Pairwise.sublist (List.filter_sublist _) h
  · intro cu s t de r hr
    unfold create_bundle at hr
    split at hr
    · exact Except.noConfusion hr
    · injection hr with h1
      rw [← h1]
      exact h
  · intro u fs r hr
    unfold update_bundle at hr
    split at hr
    · exact Except.noConfusion hr
    · simp only [] at hr
      split at hr
      · split at hr
        · split at hr
          · exact Except.noConfusion hr
          · split at hr
            · injection hr with h1
              rw [← h1]
              exact h
            · exact Except.noConfusion hr
        · exact Except.noConfusion hr
      · split at hr
        · injection hr with h1
          rw [← h1]
          exact h
        · exact Except.noConfusion hr
  · intro u st2 hr
    unfold delete_bundle at hr
    split at hr
    · exact Except.noConfusion hr
    · injection hr with h1
      rw [← h1]
      exact List.Pairwise.sublist (List.filter_sublist _) h
  · intro bu n r hr
    cases hb : st.findBundle bu with
    | none =>
      simp only [get_or_create_bundle_draft, hb] at hr
      exact Except.noConfusion hr
    | some bundle =>
      cases hdn : st.findDraftByName bundle.uuid n with
      | some dd =>
        simp only [get_or_create_bundle_draft, hb, hdn] at hr
        injection hr with h1
        rw [← h1]
        exact h
      | none =>
        simp only [get_or_create_bundle_draft, hb, hdn] at hr
        injection hr with h1
        rw [← h1]
        show DraftsUnique _
        unfold DraftsUnique
        rw [List.pairwise_append]
        refine ⟨h, List.pairwise_singleton _ _, ?_⟩
        intro a ha b hb2
        simp only [List.mem_singleton] at hb2
        subst hb2
        simp only [State.findDraftByName, List.find?_eq_none, Bool.and_eq_true,
          beq_iff_eq, not_and] at hdn
        intro hab
        exact hdn a ha (by exact hab.1) (by exact hab.2)
  · intro du p c st2 hr
    unfold write_draft_file at hr
    split at hr
    · exact Except.noConfusion hr
    · rename_i fw hser
      unfold draftRepoUpdate at hr
      split at hr
      · exact Except.noConfusion hr
      · injection hr with h1
        rw [← h1]
        unfold DraftsUnique
        rw [List.pairwise_map]
        refine h.imp ?_
        intro a b hab
        intro habs
        apply hab
        constructor
        · have ha2 : ∀ x : Models.Draft,
              (if x.uuid == du then stageDraftRow fw st.clock x else x).bundle_uuid
                = x.bundle_uuid := by
            intro x
            split <;> rfl
          rw [← ha2 a, ← ha2 b]
          exact habs.1
        · have ha3 : ∀ x : Models.Draft,
              (if x.uuid == du then stageDraftRow fw st.clock x else x).name = x.name := by
            intro x
            split <;> rfl
          rw [← ha3 a, ← ha3 b]
          exact habs.2
  · intro bu n d r hd hr
    cases hb : st.findBundle bu with
    | none =>
      simp only [get_or_create_bundle_draft, hb] at hr
      exact Except.noConfusion hr
    | some bundle =>
      have hbu : bundle.uuid = bu := by
        have := List.find?_some (show st.bundles.find? (fun x => x.uuid == bu) = some bundle from hb)
        simpa using this
      have hd2 : st.findDraftByName bundle.uuid n = some d := by
        rw [hbu]
        exact hd
      simp only [get_or_create_bundle_draft, hb, hd2] at hr
      injection hr with h1
      rw [← h1]
      exact ⟨rfl, rfl⟩

/-- C9 witness: the sample state satisfies the invariant, and asking for the
existing studio draft again changes nothing. -/
theorem draft_name_unique_invariant_witness :
    DraftsUnique demoState
    ∧ ∀ r, get_or_create_bundle_draft demoState 10 "studio_draft" = Except.ok r
      → r.2 = demoState ∧ r.1 = _data_from_draft draftA := by
  have hu : DraftsUnique demoState := List.pairwise_singleton _ _
  refine ⟨hu, ?_⟩
  intro r hr
  exact (draft_name_unique_invariant demoState hu).2.2.2.2.2.2.2.2 10 "studio_draft" draftA r
    rfl hr

end Blockstore
